import Mathlib

/-!
Shallow embedding of the numerical analytics engine of the
nifty_expiry_predictor repository: the Black-Scholes Greeks and
implied-volatility solver (src/features/greeks_calculator.py), the Gamma
Exposure aggregator (src/features/gex_calculator.py), the Max Pain solver
(src/features/max_pain.py) and the Open-Interest buildup classifier
(src/features/oi_analysis.py).

Numbers are embedded as exact rationals (or an arbitrary linear ordered
field); the transcendental kernels (log, sqrt, exp, normal cdf/pdf) used by
the Python code via numpy/scipy are abstracted as an explicit function
record `RealFuns`, so that each theorem states exactly which analytic facts
about those kernels it needs.  Python exceptions are embedded as
`Except CalcError`.
-/

namespace NiftyExpiry

/-- Errors surfaced by the analytics code: `invalidInput` embeds Python
`ValueError` raised by explicit input checks, `divByZero` embeds a division
whose denominator is zero. -/
inductive CalcError where
  | invalidInput : String → CalcError
  | divByZero : CalcError
deriving DecidableEq, Repr

/-- GEX_MULTIPLIER from src/config/constants.py (0.01). -/
def GEX_MULTIPLIER {α : Type} [DivisionRing α] : α := 1 / 100

/-- Result record of GammaExposureCalculator.calculate_strike_gex. -/
structure GexResult (α : Type) where
  call_gex : α
  put_gex : α
  net_gex : α
deriving DecidableEq, Repr

/-- GammaExposureCalculator.calculate_strike_gex
(src/features/gex_calculator.py lines 25-57):
call_gex = call_gamma * call_oi * lot_size * spot^2 * GEX_MULTIPLIER,
put_gex = -1 * put_gamma * put_oi * lot_size * spot^2 * GEX_MULTIPLIER,
net_gex = call_gex + put_gex.  The strike argument is accepted but unused,
exactly as in the source. -/
def calculate_strike_gex {α : Type} [LinearOrderedField α]
    (spot _strike call_oi put_oi call_gamma put_gamma lot_size : α) :
    GexResult α :=
  let spot_squared := spot ^ 2
  let call_gex := call_gamma * call_oi * lot_size * spot_squared * GEX_MULTIPLIER
  let put_gex := -1 * put_gamma * put_oi * lot_size * spot_squared * GEX_MULTIPLIER
  { call_gex := call_gex, put_gex := put_gex, net_gex := call_gex + put_gex }

/-- One row of the OI-change frame consumed by
OIAnalyzer.calculate_oi_buildup (strike, call_oi_change, put_oi_change). -/
structure OIChangeRow where
  strike : ℚ
  call_oi_change : ℚ
  put_oi_change : ℚ
deriving DecidableEq, Repr

/-- Result record of OIAnalyzer.calculate_oi_buildup. -/
structure BuildupResult where
  signals : List String
  call_above_change : ℚ
  call_below_change : ℚ
  put_above_change : ℚ
  put_below_change : ℚ
deriving DecidableEq, Repr

/-- Rows classified "above" spot by calculate_oi_buildup
(strike > spot; a strike equal to spot counts as "below"). -/
def aboveRows (rows : List OIChangeRow) (spot : ℚ) : List OIChangeRow :=
  rows.filter fun r => spot < r.strike

/-- Rows classified "below" spot by calculate_oi_buildup. -/
def belowRows (rows : List OIChangeRow) (spot : ℚ) : List OIChangeRow :=
  rows.filter fun r => ¬ spot < r.strike

/-- Sum of call_oi_change over the rows above spot. -/
def callAboveSum (rows : List OIChangeRow) (spot : ℚ) : ℚ :=
  ((aboveRows rows spot).map OIChangeRow.call_oi_change).sum

/-- Sum of call_oi_change over the rows below spot. -/
def callBelowSum (rows : List OIChangeRow) (spot : ℚ) : ℚ :=
  ((belowRows rows spot).map OIChangeRow.call_oi_change).sum

/-- Sum of put_oi_change over the rows above spot. -/
def putAboveSum (rows : List OIChangeRow) (spot : ℚ) : ℚ :=
  ((aboveRows rows spot).map OIChangeRow.put_oi_change).sum

/-- Sum of put_oi_change over the rows below spot. -/
def putBelowSum (rows : List OIChangeRow) (spot : ℚ) : ℚ :=
  ((belowRows rows spot).map OIChangeRow.put_oi_change).sum

/-- OIAnalyzer.calculate_oi_buildup (src/features/oi_analysis.py lines
190-235).  Note the source uses an if/elif chain, so at most one signal
label is ever emitted. -/
def calculate_oi_buildup (rows : List OIChangeRow) (spot : ℚ) : BuildupResult :=
  let call_above_increase := 0 < callAboveSum rows spot
  let call_below_increase := 0 < callBelowSum rows spot
  let put_above_increase := 0 < putAboveSum rows spot
  let put_below_increase := 0 < putBelowSum rows spot
  let signals : List String :=
    if call_below_increase ∧ put_above_increase then ["long_buildup"]
    else if call_above_increase ∧ put_below_increase then ["short_buildup"]
    else if call_below_increase ∧ put_below_increase then ["long_unwinding"]
    else if call_above_increase ∧ put_above_increase then ["short_covering"]
    else []
  { signals := signals,
    call_above_change := callAboveSum rows spot,
    call_below_change := callBelowSum rows spot,
    put_above_change := putAboveSum rows spot,
    put_below_change := putBelowSum rows spot }

/-- Abstract numeric kernels used by the Python code through numpy/scipy:
natural log, square root, exponential, standard normal cdf and pdf.  The
embedding is parametric in these so each theorem states exactly which
analytic facts it needs. -/
structure RealFuns (α : Type) where
  log : α → α
  sqrt : α → α
  exp : α → α
  cdf : α → α
  pdf : α → α

/-- d1 of GreeksCalculator.calculate_d1_d2
(src/features/greeks_calculator.py lines 37-61):
(log(spot/strike) + (rate + 0.5*vol^2)*T) / (vol*sqrt(T)). -/
def bs_d1 {α : Type} [LinearOrderedField α] (F : RealFuns α)
    (rate spot strike time_to_expiry volatility : α) : α :=
  (F.log (spot / strike) + (rate + 1/2 * volatility ^ 2) * time_to_expiry) /
    (volatility * F.sqrt time_to_expiry)

/-- d2 = d1 - vol*sqrt(T). -/
def bs_d2 {α : Type} [LinearOrderedField α] (F : RealFuns α)
    (rate spot strike time_to_expiry volatility : α) : α :=
  bs_d1 F rate spot strike time_to_expiry volatility
    - volatility * F.sqrt time_to_expiry

/-- GreeksCalculator.calculate_d1_d2: raises ValueError when
time_to_expiry <= 0, otherwise returns (d1, d2).  This is the ONLY input
check performed by the source; non-positive volatility, spot or strike are
not validated. -/
def calculate_d1_d2 {α : Type} [LinearOrderedField α] (F : RealFuns α)
    (rate spot strike time_to_expiry volatility : α) :
    Except CalcError (α × α) :=
  if time_to_expiry ≤ 0 then
    .error (.invalidInput "Time to expiry must be positive")
  else
    .ok (bs_d1 F rate spot strike time_to_expiry volatility,
         bs_d2 F rate spot strike time_to_expiry volatility)

/-- GreeksCalculator.call_price (lines 63-83):
spot*cdf(d1) - strike*exp(-rate*T)*cdf(d2); any exception from
calculate_d1_d2 propagates. -/
def call_price {α : Type} [LinearOrderedField α] (F : RealFuns α)
    (rate spot strike time_to_expiry volatility : α) : Except CalcError α :=
  match calculate_d1_d2 F rate spot strike time_to_expiry volatility with
  | .error e => .error e
  | .ok d =>
      .ok (spot * F.cdf d.1
        - strike * F.exp (-rate * time_to_expiry) * F.cdf d.2)

/-- GreeksCalculator.put_price (lines 85-105):
strike*exp(-rate*T)*cdf(-d2) - spot*cdf(-d1). -/
def put_price {α : Type} [LinearOrderedField α] (F : RealFuns α)
    (rate spot strike time_to_expiry volatility : α) : Except CalcError α :=
  match calculate_d1_d2 F rate spot strike time_to_expiry volatility with
  | .error e => .error e
  | .ok d =>
      .ok (strike * F.exp (-rate * time_to_expiry) * F.cdf (-d.2)
        - spot * F.cdf (-d.1))

/-- Result record of GreeksCalculator.calculate_greeks (the GreeksResult
dataclass of the source). -/
structure GreeksResult (α : Type) where
  price : α
  delta : α
  gamma : α
  theta : α
  vega : α
  rho : α
  implied_volatility : Option α

/-- GreeksCalculator.calculate_greeks (lines 107-188): rejects an
option_type other than "call" or "put", then computes price, delta, gamma,
theta, vega, rho by the Black-Scholes closed forms of the source. -/
def calculate_greeks {α : Type} [LinearOrderedField α] (F : RealFuns α)
    (rate spot strike time_to_expiry volatility : α) (option_type : String) :
    Except CalcError (GreeksResult α) :=
  if ¬ (option_type = "call" ∨ option_type = "put") then
    .error (.invalidInput "option_type must be call or put")
  else
    match calculate_d1_d2 F rate spot strike time_to_expiry volatility with
    | .error e => .error e
    | .ok d =>
        match (if option_type = "call" then
                call_price F rate spot strike time_to_expiry volatility
              else
                put_price F rate spot strike time_to_expiry volatility) with
        | .error e => .error e
        | .ok price =>
            .ok { price := price,
                  delta := if option_type = "call" then F.cdf d.1
                           else F.cdf d.1 - 1,
                  gamma := F.pdf d.1
                    / (spot * volatility * F.sqrt time_to_expiry),
                  theta :=
                    if option_type = "call" then
                      (-spot * F.pdf d.1 * volatility
                          / (2 * F.sqrt time_to_expiry)
                        - rate * strike * F.exp (-rate * time_to_expiry)
                          * F.cdf d.2) / 365
                    else
                      (-spot * F.pdf d.1 * volatility
                          / (2 * F.sqrt time_to_expiry)
                        + rate * strike * F.exp (-rate * time_to_expiry)
                          * F.cdf (-d.2)) / 365,
                  vega := spot * F.pdf d.1 * F.sqrt time_to_expiry / 100,
                  rho :=
                    if option_type = "call" then
                      strike * time_to_expiry * F.exp (-rate * time_to_expiry)
                        * F.cdf d.2 / 100
                    else
                      -strike * time_to_expiry * F.exp (-rate * time_to_expiry)
                        * F.cdf (-d.2) / 100,
                  implied_volatility := none }

/-- The Newton-Raphson loop of GreeksCalculator.implied_volatility (lines
214-252), with the remaining iteration count as explicit fuel.  Per
iteration: compute the theoretical price and vega at the current
volatility; return the current volatility if |price difference| <
tolerance; otherwise take a Newton step if vega > 0 (clamping a
non-positive updated volatility to 0.01) or return None if vega <= 0. -/
def iv_loop {α : Type} [LinearOrderedField α] (F : RealFuns α)
    (rate market_price spot strike time_to_expiry : α)
    (option_type : String) (tolerance : α) :
    ℕ → α → Except CalcError (Option α)
  | 0, _ => .ok none
  | fuel + 1, volatility =>
      match (if option_type = "call" then
              call_price F rate spot strike time_to_expiry volatility
            else
              put_price F rate spot strike time_to_expiry volatility) with
      | .error e => .error e
      | .ok theoretical_price =>
          match calculate_d1_d2 F rate spot strike time_to_expiry volatility with
          | .error e => .error e
          | .ok d =>
              let vega := spot * F.pdf d.1 * F.sqrt time_to_expiry
              let diff := theoretical_price - market_price
              if |diff| < tolerance then .ok (some volatility)
              else if 0 < vega then
                iv_loop F rate market_price spot strike time_to_expiry
                  option_type tolerance fuel
                  (if volatility - diff / vega ≤ 0 then 1/100
                   else volatility - diff / vega)
              else .ok none

/-- GreeksCalculator.implied_volatility (lines 190-252): runs the
Newton-Raphson loop for at most max_iterations iterations starting from
volatility 0.20; `.ok (some v)` embeds a converged return, `.ok none`
embeds the None result, `.error` embeds a raised exception. -/
def implied_volatility {α : Type} [LinearOrderedField α] (F : RealFuns α)
    (rate market_price spot strike time_to_expiry : α)
    (option_type : String) (max_iterations : ℕ) (tolerance : α) :
    Except CalcError (Option α) :=
  iv_loop F rate market_price spot strike time_to_expiry option_type
    tolerance max_iterations (20 / 100)

/-- A concrete rational kernel pack used to instantiate theorems on closed
inputs: cdf is constantly c, pdf constantly 0, log/sqrt/exp the identity. -/
def constFuns (c : ℚ) : RealFuns ℚ :=
  { log := id, sqrt := id, exp := id, cdf := fun _ => c, pdf := fun _ => 0 }

/-- One row of the option chain consumed by
MaxPainCalculator.calculate_max_pain (strike, call_oi, put_oi).  The
source's fillna(0) has already been absorbed: open interest is an exact
rational (a NaN entry becomes 0). -/
structure OIRow where
  strike : ℚ
  call_oi : ℚ
  put_oi : ℚ
deriving DecidableEq, Repr, Inhabited

/-- One row of the pain curve produced by calculate_max_pain. -/
structure PainRow where
  strike : ℚ
  call_loss : ℚ
  put_loss : ℚ
  total_pain : ℚ
deriving DecidableEq, Repr, Inhabited

/-- Call writers' loss at a candidate settlement
(src/features/max_pain.py lines 41-45): sum over strikes below the
settlement of (settlement - strike) * call_oi * lot_size. -/
def writer_call_loss (chain : List OIRow) (lot_size settlement : ℚ) : ℚ :=
  ((chain.filter fun r => r.strike < settlement).map
    (fun r => (settlement - r.strike) * r.call_oi * lot_size)).sum

/-- Put writers' loss at a candidate settlement (lines 47-52): sum over
strikes above the settlement of (strike - settlement) * put_oi * lot_size. -/
def writer_put_loss (chain : List OIRow) (lot_size settlement : ℚ) : ℚ :=
  ((chain.filter fun r => settlement < r.strike).map
    (fun r => (r.strike - settlement) * r.put_oi * lot_size)).sum

/-- The pain-curve row built for one candidate settlement. -/
def pain_row (chain : List OIRow) (lot_size settlement : ℚ) : PainRow :=
  { strike := settlement,
    call_loss := writer_call_loss chain lot_size settlement,
    put_loss := writer_put_loss chain lot_size settlement,
    total_pain := writer_call_loss chain lot_size settlement
      + writer_put_loss chain lot_size settlement }

/-- Index of the first occurrence of the minimum of a rational list
(pandas Series.idxmin over a positionally indexed frame); none on the
empty list, where pandas raises. -/
def firstMinIdx : List ℚ → Option ℕ
  | [] => none
  | x :: xs =>
    match firstMinIdx xs with
    | none => some 0
    | some j => if x ≤ xs.getD j 0 then some 0 else some (j + 1)

/-- MaxPainCalculator.calculate_max_pain (src/features/max_pain.py lines
19-74): build a pain row per listed strike, then return the strike of the
first row attaining the minimum total_pain together with the whole curve;
none embeds the idxmin exception on an empty chain. -/
def calculate_max_pain (chain : List OIRow) (lot_size : ℚ) :
    Option (ℚ × List PainRow) :=
  let pain_df := chain.map fun r => pain_row chain lot_size r.strike
  match firstMinIdx (pain_df.map PainRow.total_pain) with
  | none => none
  | some i => some ((pain_df.getD i default).strike, pain_df)

/-- Division embedded with an explicit zero-denominator failure, used to
track which divisions of calculate_pain_score are guarded. -/
def qdiv (a b : ℚ) : Except CalcError ℚ :=
  if b = 0 then .error .divByZero else .ok (a / b)

/-- Result record of MaxPainCalculator.calculate_pain_score. -/
structure PainScoreResult where
  distance_from_max_pain : ℚ
  distance_percentage : ℚ
  current_pain : ℚ
  min_pain : ℚ
  pain_score : ℚ
deriving DecidableEq, Repr

/-- MaxPainCalculator.calculate_pain_score (src/features/max_pain.py lines
143-175): distance_percentage divides by max_pain with NO guard; the
pain_score division is guarded by min_pain > 0 (else 0); the
nearest-strike lookup is an idxmin over |strike - current_price| (first
match wins), failing on an empty curve. -/
def calculate_pain_score (current_price max_pain : ℚ)
    (pain_df : List PainRow) : Except CalcError PainScoreResult :=
  match qdiv (current_price - max_pain) max_pain with
  | .error e => .error e
  | .ok dp =>
    match firstMinIdx (pain_df.map fun r => |r.strike - current_price|) with
    | none => .error (.invalidInput "attempt to get argmin of an empty sequence")
    | some i =>
      let current_pain := (pain_df.getD i default).total_pain
      match firstMinIdx (pain_df.map PainRow.total_pain) with
      | none => .error (.invalidInput "attempt to get argmin of an empty sequence")
      | some j =>
        let min_pain := (pain_df.getD j default).total_pain
        match (if 0 < min_pain then qdiv (current_pain - min_pain) min_pain
               else .ok 0) with
        | .error e => .error e
        | .ok ps =>
          .ok { distance_from_max_pain := current_price - max_pain,
                distance_percentage := dp * 100,
                current_pain := current_pain,
                min_pain := min_pain,
                pain_score := ps }

/-- C1 counterexample: the claim quantifies over ANY lot_size, but with
lot_size = -1 (and non-negative OI and gammas, as the claim requires) the
sign conclusion call_gex >= 0 fails: call_gex = -1/100 < 0. -/
theorem strike_gex_any_lot_counterexample :
    (0:ℚ) ≤ 1 ∧ (0:ℚ) ≤ 1 ∧
      ¬ 0 ≤ (calculate_strike_gex (1:ℚ) 1 1 1 1 1 (-1)).call_gex := by
  refine ⟨by norm_num, by norm_num, ?_⟩
  norm_num [calculate_strike_gex, GEX_MULTIPLIER]

/-- C1 (amended: lot_size must also be non-negative for the sign
conclusions): calculate_strike_gex returns exactly
call_gex = call_gamma*call_oi*lot_size*spot^2*(1/100),
put_gex = -(put_gamma*put_oi*lot_size*spot^2*(1/100)) and
net_gex = call_gex + put_gex for all inputs; when call_oi, put_oi,
call_gamma, put_gamma and lot_size are non-negative, call_gex >= 0 and
put_gex <= 0; and at the concrete scenario (spot 19500, strike 19500,
call_oi 1000, put_oi 1500, gammas 0.001, lot 50) it returns
(190125000, -285187500, -95062500). -/
theorem strike_gex_spec :
    (∀ spot strike call_oi put_oi call_gamma put_gamma lot_size : ℚ,
      (calculate_strike_gex spot strike call_oi put_oi call_gamma put_gamma
          lot_size).call_gex
          = call_gamma * call_oi * lot_size * spot ^ 2 * (1 / 100) ∧
      (calculate_strike_gex spot strike call_oi put_oi call_gamma put_gamma
          lot_size).put_gex
          = -(put_gamma * put_oi * lot_size * spot ^ 2 * (1 / 100)) ∧
      (calculate_strike_gex spot strike call_oi put_oi call_gamma put_gamma
          lot_size).net_gex
          = (calculate_strike_gex spot strike call_oi put_oi call_gamma
              put_gamma lot_size).call_gex
            + (calculate_strike_gex spot strike call_oi put_oi call_gamma
                put_gamma lot_size).put_gex ∧
      (0 ≤ call_oi → 0 ≤ put_oi → 0 ≤ call_gamma → 0 ≤ put_gamma →
        0 ≤ lot_size →
        0 ≤ (calculate_strike_gex spot strike call_oi put_oi call_gamma
              put_gamma lot_size).call_gex ∧
        (calculate_strike_gex spot strike call_oi put_oi call_gamma
            put_gamma lot_size).put_gex ≤ 0)) ∧
    calculate_strike_gex (19500:ℚ) 19500 1000 1500 (1/1000) (1/1000) 50
      = ⟨190125000, -285187500, -95062500⟩ := by
  constructor
  · intro spot strike call_oi put_oi call_gamma put_gamma lot_size
    refine ⟨by simp [calculate_strike_gex, GEX_MULTIPLIER], ?_, rfl, ?_⟩
    · simp [calculate_strike_gex, GEX_MULTIPLIER]
    · intro hc hp hcg hpg hl
      constructor
      · have : (0:ℚ) ≤ call_gamma * call_oi * lot_size * spot ^ 2 * (1/100) := by
          positivity
        simpa [calculate_strike_gex, GEX_MULTIPLIER] using this
      · have : (0:ℚ) ≤ put_gamma * put_oi * lot_size * spot ^ 2 * (1/100) := by
          positivity
        have h2 : -1 * (put_gamma * put_oi * lot_size * spot ^ 2 * (1/100)) ≤ 0 := by
          linarith
        simp only [calculate_strike_gex, GEX_MULTIPLIER]
        linarith
  · norm_num [calculate_strike_gex, GEX_MULTIPLIER, GexResult.mk.injEq]

/-- Closed instance of strike_gex_spec: discharges the non-negativity
hypotheses of the sign clause at the concrete scenario. -/
theorem strike_gex_spec_witness :
    0 ≤ (calculate_strike_gex (19500:ℚ) 19500 1000 1500 (1/1000) (1/1000)
          50).call_gex ∧
    (calculate_strike_gex (19500:ℚ) 19500 1000 1500 (1/1000) (1/1000)
        50).put_gex ≤ 0 :=
  ((strike_gex_spec.1 19500 19500 1000 1500 (1/1000) (1/1000) 50).2.2.2)
    (by norm_num) (by norm_num) (by norm_num) (by norm_num) (by norm_num)

/-- C5 counterexample: with rows [(10,10,10),(100,10,10)] and spot 50 all
four side-sums are positive, so the claim requires "short_covering" (and
"short_buildup", "long_unwinding") to be among the returned labels; the
source's if/elif chain emits only ["long_buildup"]. -/
theorem oi_buildup_counterexample :
    0 < (calculate_oi_buildup [⟨10,10,10⟩, ⟨100,10,10⟩] 50).call_above_change ∧
    0 < (calculate_oi_buildup [⟨10,10,10⟩, ⟨100,10,10⟩] 50).put_above_change ∧
    (calculate_oi_buildup [⟨10,10,10⟩, ⟨100,10,10⟩] 50).signals
      = ["long_buildup"] ∧
    "short_covering" ∉ (calculate_oi_buildup [⟨10,10,10⟩, ⟨100,10,10⟩] 50).signals := by
  have h : calculate_oi_buildup [⟨10,10,10⟩, ⟨100,10,10⟩] 50 =
      { signals := ["long_buildup"], call_above_change := 10,
        call_below_change := 10, put_above_change := 10,
        put_below_change := 10 } := by
    norm_num [calculate_oi_buildup, callAboveSum, callBelowSum, putAboveSum,
      putBelowSum, aboveRows, belowRows, List.filter]
  rw [h]
  refine ⟨by norm_num, by norm_num, rfl, by decide⟩

/-- C5 (amended): calculate_oi_buildup emits at most one label, chosen by
the first matching pattern in the fixed order long_buildup, short_buildup,
long_unwinding, short_covering; a label is present iff its sum conditions
hold and no earlier pattern matched. -/
theorem oi_buildup_first_match (rows : List OIChangeRow) (spot : ℚ) :
    (calculate_oi_buildup rows spot).signals.length ≤ 1 ∧
    ("long_buildup" ∈ (calculate_oi_buildup rows spot).signals ↔
      0 < callBelowSum rows spot ∧ 0 < putAboveSum rows spot) ∧
    ("short_buildup" ∈ (calculate_oi_buildup rows spot).signals ↔
      ¬(0 < callBelowSum rows spot ∧ 0 < putAboveSum rows spot) ∧
      (0 < callAboveSum rows spot ∧ 0 < putBelowSum rows spot)) ∧
    ("long_unwinding" ∈ (calculate_oi_buildup rows spot).signals ↔
      ¬(0 < callBelowSum rows spot ∧ 0 < putAboveSum rows spot) ∧
      ¬(0 < callAboveSum rows spot ∧ 0 < putBelowSum rows spot) ∧
      (0 < callBelowSum rows spot ∧ 0 < putBelowSum rows spot)) ∧
    ("short_covering" ∈ (calculate_oi_buildup rows spot).signals ↔
      ¬(0 < callBelowSum rows spot ∧ 0 < putAboveSum rows spot) ∧
      ¬(0 < callAboveSum rows spot ∧ 0 < putBelowSum rows spot) ∧
      ¬(0 < callBelowSum rows spot ∧ 0 < putBelowSum rows spot) ∧
      (0 < callAboveSum rows spot ∧ 0 < putAboveSum rows spot)) := by
  simp only [calculate_oi_buildup]
  split_ifs with h1 h2 h3 h4 <;> simp_all

/-- With positive time to expiry the d1/d2 guard passes. -/
theorem d1_d2_ok {α : Type} [LinearOrderedField α] (F : RealFuns α)
    (rate spot strike T vol : α) (hT : 0 < T) :
    calculate_d1_d2 F rate spot strike T vol
      = .ok (bs_d1 F rate spot strike T vol, bs_d2 F rate spot strike T vol) := by
  unfold calculate_d1_d2
  rw [if_neg (not_le.mpr hT)]

/-- With positive time to expiry call_price returns the closed form. -/
theorem call_price_ok {α : Type} [LinearOrderedField α] (F : RealFuns α)
    (rate spot strike T vol : α) (hT : 0 < T) :
    call_price F rate spot strike T vol
      = .ok (spot * F.cdf (bs_d1 F rate spot strike T vol)
          - strike * F.exp (-rate * T) * F.cdf (bs_d2 F rate spot strike T vol)) := by
  unfold call_price
  rw [d1_d2_ok F rate spot strike T vol hT]

/-- With positive time to expiry put_price returns the closed form. -/
theorem put_price_ok {α : Type} [LinearOrderedField α] (F : RealFuns α)
    (rate spot strike T vol : α) (hT : 0 < T) :
    put_price F rate spot strike T vol
      = .ok (strike * F.exp (-rate * T) * F.cdf (-bs_d2 F rate spot strike T vol)
          - spot * F.cdf (-bs_d1 F rate spot strike T vol)) := by
  unfold put_price
  rw [d1_d2_ok F rate spot strike T vol hT]

/-- C3 (amended): the pricing operations fail with the invalid-input
ValueError exactly when time to expiry is non-positive; non-positive
volatility, spot or strike are not validated and do not raise. -/
theorem price_invalid_input_iff {α : Type} [LinearOrderedField α]
    (F : RealFuns α) (rate spot strike T vol : α) :
    ((calculate_d1_d2 F rate spot strike T vol).isOk = true ↔ 0 < T) ∧
    ((call_price F rate spot strike T vol).isOk = true ↔ 0 < T) ∧
    ((put_price F rate spot strike T vol).isOk = true ↔ 0 < T) ∧
    (T ≤ 0 → calculate_d1_d2 F rate spot strike T vol
      = .error (.invalidInput "Time to expiry must be positive")) := by
  by_cases hT : T ≤ 0
  · unfold call_price put_price calculate_d1_d2
    rw [if_pos hT]
    simp [Except.isOk, Except.toBool, not_lt.mpr hT]
  · have hT' := not_le.mp hT
    simp [d1_d2_ok F rate spot strike T vol hT',
      call_price_ok F rate spot strike T vol hT',
      put_price_ok F rate spot strike T vol hT', Except.isOk, Except.toBool,
      hT', hT]

/-- C3 counterexample: with T = 1 > 0 but volatility = -1 <= 0 the pricing
call succeeds (returning a meaningless finite value) instead of failing
with an invalid-input error as the claim requires. -/
theorem price_negative_vol_counterexample :
    (call_price (constFuns 0) (7/100) (100:ℚ) 100 1 (-1)).isOk = true := by
  rw [call_price_ok (constFuns 0) (7/100) 100 100 1 (-1) (by norm_num)]
  rfl

/-- C7: put-call parity holds exactly over the embedding: for spot, strike,
T, vol all positive, given only that the cdf kernel satisfies
cdf(x) + cdf(-x) = 1, call_price - put_price = spot - strike*exp(-rate*T). -/
theorem put_call_parity {α : Type} [LinearOrderedField α] (F : RealFuns α)
    (rate spot strike T vol : α) (hs : 0 < spot) (hk : 0 < strike)
    (hT : 0 < T) (hv : 0 < vol) (hcdf : ∀ x, F.cdf x + F.cdf (-x) = 1) :
    ∃ c p, call_price F rate spot strike T vol = .ok c ∧
      put_price F rate spot strike T vol = .ok p ∧
      c - p = spot - strike * F.exp (-rate * T) := by
  refine ⟨_, _, call_price_ok F rate spot strike T vol hT,
    put_price_ok F rate spot strike T vol hT, ?_⟩
  have h1 := hcdf (bs_d1 F rate spot strike T vol)
  have h2 := hcdf (bs_d2 F rate spot strike T vol)
  linear_combination spot * h1 - strike * F.exp (-rate * T) * h2

/-- Closed instance of put_call_parity at spot 100, strike 90, T = 1,
vol = 0.2, with the constant-1/2 cdf kernel. -/
theorem put_call_parity_witness :
    ∃ c p, call_price (constFuns (1/2)) (7/100) (100:ℚ) 90 1 (1/5) = .ok c ∧
      put_price (constFuns (1/2)) (7/100) (100:ℚ) 90 1 (1/5) = .ok p ∧
      c - p = 100 - 90 * (constFuns (1/2)).exp (-(7/100) * 1) :=
  put_call_parity (constFuns (1/2)) (7/100) 100 90 1 (1/5) (by norm_num)
    (by norm_num) (by norm_num) (by norm_num) (fun x => by norm_num [constFuns])

/-- With positive time to expiry calculate_greeks for a call returns the
closed-form record. -/
theorem greeks_call_ok {α : Type} [LinearOrderedField α] (F : RealFuns α)
    (rate spot strike T vol : α) (hT : 0 < T) :
    calculate_greeks F rate spot strike T vol "call" = .ok
      { price := spot * F.cdf (bs_d1 F rate spot strike T vol)
          - strike * F.exp (-rate * T) * F.cdf (bs_d2 F rate spot strike T vol),
        delta := F.cdf (bs_d1 F rate spot strike T vol),
        gamma := F.pdf (bs_d1 F rate spot strike T vol)
          / (spot * vol * F.sqrt T),
        theta := (-spot * F.pdf (bs_d1 F rate spot strike T vol) * vol
            / (2 * F.sqrt T)
          - rate * strike * F.exp (-rate * T)
            * F.cdf (bs_d2 F rate spot strike T vol)) / 365,
        vega := spot * F.pdf (bs_d1 F rate spot strike T vol) * F.sqrt T / 100,
        rho := strike * T * F.exp (-rate * T)
          * F.cdf (bs_d2 F rate spot strike T vol) / 100,
        implied_volatility := none } := by
  unfold calculate_greeks
  rw [d1_d2_ok F rate spot strike T vol hT]
  simp [call_price_ok F rate spot strike T vol hT]

/-- With positive time to expiry calculate_greeks for a put returns the
closed-form record. -/
theorem greeks_put_ok {α : Type} [LinearOrderedField α] (F : RealFuns α)
    (rate spot strike T vol : α) (hT : 0 < T) :
    calculate_greeks F rate spot strike T vol "put" = .ok
      { price := strike * F.exp (-rate * T)
            * F.cdf (-bs_d2 F rate spot strike T vol)
          - spot * F.cdf (-bs_d1 F rate spot strike T vol),
        delta := F.cdf (bs_d1 F rate spot strike T vol) - 1,
        gamma := F.pdf (bs_d1 F rate spot strike T vol)
          / (spot * vol * F.sqrt T),
        theta := (-spot * F.pdf (bs_d1 F rate spot strike T vol) * vol
            / (2 * F.sqrt T)
          + rate * strike * F.exp (-rate * T)
            * F.cdf (-bs_d2 F rate spot strike T vol)) / 365,
        vega := spot * F.pdf (bs_d1 F rate spot strike T vol) * F.sqrt T / 100,
        rho := -strike * T * F.exp (-rate * T)
          * F.cdf (-bs_d2 F rate spot strike T vol) / 100,
        implied_volatility := none } := by
  unfold calculate_greeks
  rw [d1_d2_ok F rate spot strike T vol hT]
  simp [put_price_ok F rate spot strike T vol hT]

/-- C8: for positive spot, strike, T, vol, given that the cdf kernel is
bounded in [0,1], the pdf kernel is non-negative and sqrt is non-negative
on non-negative arguments, calculate_greeks returns call delta in [0,1],
put delta in [-1,0], identical non-negative gamma for call and put, and
non-negative vega on both sides. -/
theorem greeks_bounds {α : Type} [LinearOrderedField α] (F : RealFuns α)
    (rate spot strike T vol : α) (hs : 0 < spot) (hk : 0 < strike)
    (hT : 0 < T) (hv : 0 < vol)
    (hcdf : ∀ x, 0 ≤ F.cdf x ∧ F.cdf x ≤ 1)
    (hpdf : ∀ x, 0 ≤ F.pdf x)
    (hsqrt : ∀ x, 0 ≤ x → 0 ≤ F.sqrt x) :
    ∃ gc gp, calculate_greeks F rate spot strike T vol "call" = .ok gc ∧
      calculate_greeks F rate spot strike T vol "put" = .ok gp ∧
      0 ≤ gc.delta ∧ gc.delta ≤ 1 ∧ -1 ≤ gp.delta ∧ gp.delta ≤ 0 ∧
      gc.gamma = gp.gamma ∧ 0 ≤ gc.gamma ∧ 0 ≤ gc.vega ∧ 0 ≤ gp.vega := by
  refine ⟨_, _, greeks_call_ok F rate spot strike T vol hT,
    greeks_put_ok F rate spot strike T vol hT, ?_, ?_, ?_, ?_, rfl, ?_, ?_, ?_⟩
  · exact (hcdf _).1
  · exact (hcdf _).2
  · have := (hcdf (bs_d1 F rate spot strike T vol)).1
    simp only
    linarith
  · have := (hcdf (bs_d1 F rate spot strike T vol)).2
    simp only
    linarith
  · exact div_nonneg (hpdf _)
      (mul_nonneg (mul_nonneg hs.le hv.le) (hsqrt T hT.le))
  · exact div_nonneg
      (mul_nonneg (mul_nonneg hs.le (hpdf _)) (hsqrt T hT.le)) (by norm_num)
  · exact div_nonneg
      (mul_nonneg (mul_nonneg hs.le (hpdf _)) (hsqrt T hT.le)) (by norm_num)

/-- Closed instance of greeks_bounds with the constant-1/2 cdf kernel at
spot 100, strike 90, T = 1, vol = 0.2. -/
theorem greeks_bounds_witness :
    ∃ gc gp,
      calculate_greeks (constFuns (1/2)) (7/100) (100:ℚ) 90 1 (1/5) "call"
        = .ok gc ∧
      calculate_greeks (constFuns (1/2)) (7/100) (100:ℚ) 90 1 (1/5) "put"
        = .ok gp ∧
      0 ≤ gc.delta ∧ gc.delta ≤ 1 ∧ -1 ≤ gp.delta ∧ gp.delta ≤ 0 ∧
      gc.gamma = gp.gamma ∧ 0 ≤ gc.gamma ∧ 0 ≤ gc.vega ∧ 0 ≤ gp.vega :=
  greeks_bounds (constFuns (1/2)) (7/100) 100 90 1 (1/5) (by norm_num)
    (by norm_num) (by norm_num) (by norm_num)
    (fun x => by norm_num [constFuns]) (fun x => by norm_num [constFuns])
    (fun x hx => by simpa [constFuns] using hx)

/-- With positive time to expiry, each iv_loop run terminates without an
exception, and a returned volatility has theoretical price within tolerance
of the market price. -/
theorem iv_loop_ok {α : Type} [LinearOrderedField α] (F : RealFuns α)
    (rate market_price spot strike T : α) (otype : String) (tol : α)
    (hT : 0 < T) :
    ∀ (fuel : ℕ) (vol : α), ∃ r,
      iv_loop F rate market_price spot strike T otype tol fuel vol = .ok r ∧
      ∀ v, r = some v →
        ∃ c, (if otype = "call" then call_price F rate spot strike T v
              else put_price F rate spot strike T v) = .ok c ∧
          |c - market_price| < tol := by
  intro fuel
  induction fuel with
  | zero => exact fun vol => ⟨none, rfl, by simp⟩
  | succ n ih =>
      intro vol
      obtain ⟨tp, htp⟩ : ∃ tp,
          (if otype = "call" then call_price F rate spot strike T vol
           else put_price F rate spot strike T vol) = .ok tp := by
        split
        · exact ⟨_, call_price_ok F rate spot strike T vol hT⟩
        · exact ⟨_, put_price_ok F rate spot strike T vol hT⟩
      by_cases hconv : |tp - market_price| < tol
      · refine ⟨some vol, ?_, ?_⟩
        · simp only [iv_loop]
          rw [htp, d1_d2_ok F rate spot strike T vol hT]
          simp [hconv]
        · intro v hv
          obtain rfl : vol = v := by simpa using hv
          exact ⟨tp, htp, hconv⟩
      · by_cases hvega :
            0 < spot * F.pdf (bs_d1 F rate spot strike T vol) * F.sqrt T
        · obtain ⟨r, hr, hprop⟩ := ih
            (if vol - (tp - market_price) /
                (spot * F.pdf (bs_d1 F rate spot strike T vol) * F.sqrt T)
                ≤ 0 then 1/100
             else vol - (tp - market_price) /
                (spot * F.pdf (bs_d1 F rate spot strike T vol) * F.sqrt T))
          refine ⟨r, ?_, hprop⟩
          simp only [iv_loop]
          rw [htp, d1_d2_ok F rate spot strike T vol hT]
          simpa [hconv, hvega] using hr
        · refine ⟨none, ?_, by simp⟩
          simp only [iv_loop]
          rw [htp, d1_d2_ok F rate spot strike T vol hT]
          simp [hconv, hvega]

/-- C4 counterexample: the claim says implied_volatility never raises, but
with time_to_expiry = 0 the very first pricing call raises the
time-to-expiry ValueError, which propagates out of the solver. -/
theorem implied_volatility_raise_counterexample :
    implied_volatility (constFuns 0) (7/100) (5:ℚ) 100 100 0 "call" 100
        (1/100000)
      = .error (.invalidInput "Time to expiry must be positive") := by
  rfl

/-- C4 (amended: for calls with positive time to expiry): the solver always
returns without an exception, within max_iterations iterations (the fuel of
the loop), and whenever it returns a numeric volatility the corresponding
theoretical price differs from the market price by strictly less than
tolerance; otherwise it returns the None result. -/
theorem implied_volatility_trichotomy {α : Type} [LinearOrderedField α]
    (F : RealFuns α) (rate market_price spot strike T : α) (otype : String)
    (max_iterations : ℕ) (tol : α) (hT : 0 < T) :
    ∃ r, implied_volatility F rate market_price spot strike T otype
        max_iterations tol = .ok r ∧
      ∀ v, r = some v →
        ∃ c, (if otype = "call" then call_price F rate spot strike T v
              else put_price F rate spot strike T v) = .ok c ∧
          |c - market_price| < tol :=
  iv_loop_ok F rate market_price spot strike T otype tol hT
    max_iterations (20/100)

/-- Closed instance of implied_volatility_trichotomy at T = 1 with the
constant-0 cdf kernel. -/
theorem implied_volatility_trichotomy_witness :
    ∃ r, implied_volatility (constFuns 0) (7/100) (5:ℚ) 100 100 1 "call" 100
        (1/100000) = .ok r ∧
      ∀ v, r = some v →
        ∃ c, (if "call" = "call" then
                call_price (constFuns 0) (7/100) (100:ℚ) 100 1 v
              else put_price (constFuns 0) (7/100) (100:ℚ) 100 1 v) = .ok c ∧
          |c - 5| < 1/100000 :=
  implied_volatility_trichotomy (constFuns 0) (7/100) 5 100 100 1 "call" 100
    (1/100000) (by norm_num)

/-- Every volatility that iv_loop returns is strictly positive, provided
the volatility it starts from is. -/
theorem iv_loop_pos {α : Type} [LinearOrderedField α] (F : RealFuns α)
    (rate market_price spot strike T : α) (otype : String) (tol : α) :
    ∀ (fuel : ℕ) (vol : α), 0 < vol → ∀ v,
      iv_loop F rate market_price spot strike T otype tol fuel vol
        = .ok (some v) → 0 < v := by
  intro fuel
  induction fuel with
  | zero => intro vol hvol v h; simp [iv_loop] at h
  | succ n ih =>
      intro vol hvol v h
      simp only [iv_loop] at h
      cases htp : (if otype = "call" then
          call_price F rate spot strike T vol
        else put_price F rate spot strike T vol) with
      | error e => rw [htp] at h; simp at h
      | ok tp =>
          rw [htp] at h
          cases hd : calculate_d1_d2 F rate spot strike T vol with
          | error e => rw [hd] at h; simp at h
          | ok d =>
              rw [hd] at h
              by_cases hconv : |tp - market_price| < tol
              · simp only [hconv, if_pos] at h
                obtain rfl : vol = v := by simpa using h
                exact hvol
              · by_cases hvega : 0 < spot * F.pdf d.1 * F.sqrt T
                · simp only [hconv, hvega, if_pos, if_neg, if_false,
                    not_false_eq_true] at h
                  refine ih _ ?_ v h
                  split_ifs with h'
                  · norm_num
                  · exact not_le.mp h'
                · simp [hconv, hvega] at h

/-- C9: whenever implied_volatility returns a numeric result it is strictly
positive: the iteration starts at 0.20 and every Newton step that drives
the candidate non-positive is clamped back to 0.01 before the volatility
can be returned. -/
theorem implied_volatility_positive {α : Type} [LinearOrderedField α]
    (F : RealFuns α) (rate market_price spot strike T : α) (otype : String)
    (max_iterations : ℕ) (tol v : α)
    (h : implied_volatility F rate market_price spot strike T otype
        max_iterations tol = .ok (some v)) : 0 < v :=
  iv_loop_pos F rate market_price spot strike T otype tol max_iterations
    (20/100) (by norm_num) v h

/-- One-step unfolding of iv_loop when the pricing call and the d1/d2 call
both succeed at the current volatility. -/
theorem iv_loop_succ_ok {α : Type} [LinearOrderedField α] (F : RealFuns α)
    (rate market_price spot strike T : α) (otype : String) (tol : α)
    (fuel : ℕ) (vol tp : α) (d : α × α)
    (htp : (if otype = "call" then call_price F rate spot strike T vol
            else put_price F rate spot strike T vol) = .ok tp)
    (hd : calculate_d1_d2 F rate spot strike T vol = .ok d) :
    iv_loop F rate market_price spot strike T otype tol (fuel + 1) vol =
      if |tp - market_price| < tol then .ok (some vol)
      else if 0 < spot * F.pdf d.1 * F.sqrt T then
        iv_loop F rate market_price spot strike T otype tol fuel
          (if vol - (tp - market_price) / (spot * F.pdf d.1 * F.sqrt T) ≤ 0
           then 1/100
           else vol - (tp - market_price) / (spot * F.pdf d.1 * F.sqrt T))
      else .ok none := by
  simp only [iv_loop]
  rw [htp, hd]

/-- Closed instance of implied_volatility_positive: with the constant-0 cdf
kernel and market price 0 the solver converges on the first iteration and
returns the strictly positive initial volatility 0.20. -/
theorem implied_volatility_positive_witness :
    ∃ v, implied_volatility (constFuns 0) (7/100) (0:ℚ) 100 100 1 "call" 100
        (1/100000) = .ok (some v) ∧ 0 < v := by
  have hc : call_price (constFuns 0) (7/100) (100:ℚ) 100 1 (20/100)
      = .ok 0 := by
    rw [call_price_ok (constFuns 0) (7/100) 100 100 1 (20/100) (by norm_num)]
    norm_num [constFuns]
  have h : implied_volatility (constFuns 0) (7/100) (0:ℚ) 100 100 1 "call"
      100 (1/100000) = .ok (some (1/5)) := by
    show iv_loop (constFuns 0) (7/100) (0:ℚ) 100 100 1 "call" (1/100000)
        100 (20/100) = .ok (some (1/5))
    rw [show (100:ℕ) = 99 + 1 from rfl,
      iv_loop_succ_ok (constFuns 0) (7/100) (0:ℚ) 100 100 1 "call"
        (1/100000) 99 (20/100) 0 _ (by simpa using hc)
        (d1_d2_ok (constFuns 0) (7/100) 100 100 1 (20/100) (by norm_num)),
      if_pos (by norm_num : |(0:ℚ) - 0| < 1/100000)]
    norm_num
  exact ⟨1/5, h, implied_volatility_positive (constFuns 0) (7/100) 0 100 100
    1 "call" 100 (1/100000) (1/5) h⟩

/-- firstMinIdx on a non-empty list returns the index of the first
occurrence of the minimum: it is in range, its value is a lower bound of
the whole list, and every earlier entry is strictly larger. -/
theorem firstMinIdx_spec :
    ∀ l : List ℚ, l ≠ [] → ∃ i, firstMinIdx l = some i ∧ i < l.length ∧
      (∀ j < l.length, l.getD i 0 ≤ l.getD j 0) ∧
      ∀ j < i, l.getD i 0 < l.getD j 0 := by
  intro l
  induction l with
  | nil => intro h; exact absurd rfl h
  | cons x xs ih =>
      intro _
      by_cases hxs : xs = []
      · subst hxs
        refine ⟨0, rfl, by simp, ?_, by omega⟩
        intro j hj
        have hj0 : j = 0 := by simpa using hj
        subst hj0
        exact le_refl _
      · obtain ⟨i, hfi, hlen, hmin, htie⟩ := ih hxs
        by_cases hle : x ≤ xs.getD i 0
        · refine ⟨0, ?_, by simp, ?_, by omega⟩
          · show (match firstMinIdx xs with
              | none => some 0
              | some j => if x ≤ xs.getD j 0 then some 0
                          else some (j + 1)) = some 0
            rw [hfi]
            show (if x ≤ xs.getD i 0 then some 0 else some (i + 1)) = some 0
            rw [if_pos hle]
          · intro j hj
            cases j with
            | zero => exact le_refl _
            | succ k =>
                have hk : k < xs.length := by simpa using hj
                simpa [List.getD_cons_zero, List.getD_cons_succ] using
                  hle.trans (hmin k hk)
        · have hlt : xs.getD i 0 < x := not_le.mp hle
          refine ⟨i + 1, ?_, by simpa using hlen, ?_, ?_⟩
          · show (match firstMinIdx xs with
              | none => some 0
              | some j => if x ≤ xs.getD j 0 then some 0
                          else some (j + 1)) = some (i + 1)
            rw [hfi]
            show (if x ≤ xs.getD i 0 then some 0 else some (i + 1))
              = some (i + 1)
            rw [if_neg hle]
          · intro j hj
            cases j with
            | zero =>
                simpa [List.getD_cons_zero, List.getD_cons_succ] using hlt.le
            | succ k =>
                have hk : k < xs.length := by simpa using hj
                simpa [List.getD_cons_succ] using hmin k hk
          · intro j hj
            cases j with
            | zero =>
                simpa [List.getD_cons_zero, List.getD_cons_succ] using hlt
            | succ k =>
                have hk : k < i := by omega
                simpa [List.getD_cons_succ] using htie k hk

/-- getD through a map, for indices in range. -/
theorem getD_map_getD (f : PainRow → ℚ) (l : List PainRow) (i : ℕ)
    (h : i < l.length) :
    (l.map f).getD i 0 = f (l.getD i default) := by
  rw [List.getD_eq_getElem _ _ (by simpa using h),
    List.getD_eq_getElem _ _ h, List.getElem_map]

/-- The filtered call-writer loss rewritten as a sum of guarded terms over
the whole chain. -/
theorem writer_call_loss_eq (chain : List OIRow) (lot_size settlement : ℚ) :
    writer_call_loss chain lot_size settlement
      = (chain.map fun r => if r.strike < settlement
          then (settlement - r.strike) * r.call_oi * lot_size else 0).sum := by
  unfold writer_call_loss
  induction chain with
  | nil => rfl
  | cons a t ih =>
      by_cases h : a.strike < settlement <;>
        simp [List.filter_cons, h, ih]

/-- The filtered put-writer loss rewritten as a sum of guarded terms over
the whole chain. -/
theorem writer_put_loss_eq (chain : List OIRow) (lot_size settlement : ℚ) :
    writer_put_loss chain lot_size settlement
      = (chain.map fun r => if settlement < r.strike
          then (r.strike - settlement) * r.put_oi * lot_size else 0).sum := by
  unfold writer_put_loss
  induction chain with
  | nil => rfl
  | cons a t ih =>
      by_cases h : settlement < a.strike <;>
        simp [List.filter_cons, h, ih]

/-- C2: on a non-empty chain with ascending strikes and non-negative open
interest, calculate_max_pain builds one pain row per listed strike with
call_loss(S) = sum over strikes k < S of (S-k)*call_oi(k)*lot_size,
put_loss(S) = sum over strikes k > S of (k-S)*put_oi(k)*lot_size and
total_pain = call_loss + put_loss; the returned strike is a listed strike
whose total_pain is <= every other row's, and it is the FIRST such row in
ascending-strike order (every earlier row has strictly larger pain). -/
theorem max_pain_spec (chain : List OIRow) (lot_size : ℚ) (hne : chain ≠ [])
    (hasc : chain.Chain' fun a b => a.strike < b.strike)
    (hoi : ∀ r ∈ chain, 0 ≤ r.call_oi ∧ 0 ≤ r.put_oi) :
    ∃ mp pain_df, calculate_max_pain chain lot_size = some (mp, pain_df) ∧
      pain_df.length = chain.length ∧
      (∀ row ∈ pain_df, row.total_pain = row.call_loss + row.put_loss ∧
        row.call_loss = (chain.map fun r => if r.strike < row.strike
          then (row.strike - r.strike) * r.call_oi * lot_size else 0).sum ∧
        row.put_loss = (chain.map fun r => if row.strike < r.strike
          then (r.strike - row.strike) * r.put_oi * lot_size else 0).sum) ∧
      mp ∈ chain.map OIRow.strike ∧
      (∃ i, i < pain_df.length ∧ (pain_df.getD i default).strike = mp ∧
        (∀ row ∈ pain_df,
          (pain_df.getD i default).total_pain ≤ row.total_pain) ∧
        ∀ j < i, (pain_df.getD i default).total_pain
          < (pain_df.getD j default).total_pain) := by
  have hdf_len : (chain.map fun r => pain_row chain lot_size r.strike).length
      = chain.length := by simp
  have hL : ((chain.map fun r => pain_row chain lot_size r.strike).map
      PainRow.total_pain) ≠ [] := by
    simp only [ne_eq, List.map_eq_nil_iff]
    exact hne
  obtain ⟨i, hfi, hilen, hmin, htie⟩ := firstMinIdx_spec _ hL
  have hilen' : i < (chain.map fun r => pain_row chain lot_size r.strike).length := by
    simpa using hilen
  have hichain : i < chain.length := by simpa using hilen'
  refine ⟨((chain.map fun r => pain_row chain lot_size r.strike).getD i
      default).strike,
    chain.map fun r => pain_row chain lot_size r.strike, ?_, hdf_len, ?_, ?_,
    i, hilen', rfl, ?_, ?_⟩
  · simp only [calculate_max_pain]
    rw [hfi]
  · intro row hrow
    obtain ⟨r, _, rfl⟩ := List.mem_map.mp hrow
    exact ⟨rfl, by simp [pain_row, writer_call_loss_eq],
      by simp [pain_row, writer_put_loss_eq]⟩
  · have hmem : chain.getD i default ∈ chain := by
      rw [List.getD_eq_getElem _ _ hichain]
      exact List.getElem_mem hichain
    have h1 : (chain.map fun r => pain_row chain lot_size r.strike).getD i
        default = pain_row chain lot_size (chain.getD i default).strike := by
      rw [List.getD_eq_getElem _ _ hilen', List.getElem_map,
        ← List.getD_eq_getElem chain default hichain]
    rw [h1]
    exact List.mem_map.mpr ⟨chain.getD i default, hmem, rfl⟩
  · intro row hrow
    obtain ⟨j, hj, hje⟩ := List.mem_iff_getElem.mp hrow
    have hjlen : j < ((chain.map fun r => pain_row chain lot_size
        r.strike).map PainRow.total_pain).length := by simpa using hj
    have hmj := hmin j hjlen
    rw [getD_map_getD PainRow.total_pain _ i hilen',
      getD_map_getD PainRow.total_pain _ j hj] at hmj
    rwa [List.getD_eq_getElem _ _ hj, hje] at hmj
  · intro j hj
    have hjlen : j < (chain.map fun r => pain_row chain lot_size
        r.strike).length := lt_trans hj hilen'
    have htj := htie j hj
    rwa [getD_map_getD PainRow.total_pain _ i hilen',
      getD_map_getD PainRow.total_pain _ j hjlen] at htj

/-- Closed instance of max_pain_spec on the two-strike chain
[(100, oi 1/1), (200, oi 2/3)] with lot size 50. -/
theorem max_pain_spec_witness :
    ∃ mp pain_df,
      calculate_max_pain [⟨100,1,1⟩, ⟨200,2,3⟩] 50 = some (mp, pain_df) ∧
      pain_df.length = ([⟨100,1,1⟩, ⟨200,2,3⟩] : List OIRow).length ∧
      (∀ row ∈ pain_df, row.total_pain = row.call_loss + row.put_loss ∧
        row.call_loss = (([⟨100,1,1⟩, ⟨200,2,3⟩] : List OIRow).map fun r =>
          if r.strike < row.strike
          then (row.strike - r.strike) * r.call_oi * 50 else 0).sum ∧
        row.put_loss = (([⟨100,1,1⟩, ⟨200,2,3⟩] : List OIRow).map fun r =>
          if row.strike < r.strike
          then (r.strike - row.strike) * r.put_oi * 50 else 0).sum) ∧
      mp ∈ ([⟨100,1,1⟩, ⟨200,2,3⟩] : List OIRow).map OIRow.strike ∧
      (∃ i, i < pain_df.length ∧ (pain_df.getD i default).strike = mp ∧
        (∀ row ∈ pain_df,
          (pain_df.getD i default).total_pain ≤ row.total_pain) ∧
        ∀ j < i, (pain_df.getD i default).total_pain
          < (pain_df.getD j default).total_pain) :=
  max_pain_spec [⟨100,1,1⟩, ⟨200,2,3⟩] 50 (by simp)
    (by simp [List.chain'_cons]; norm_num)
    (by intro r hr; simp at hr; rcases hr with rfl | rfl <;> norm_num)

/-- C10: on a non-empty pain curve every division of calculate_pain_score
is well-defined whenever max_pain is non-zero (the pain_score division is
explicitly guarded by min_pain > 0, returning 0 otherwise), while
max_pain = 0 makes the one unguarded division (distance_percentage) fail. -/
theorem pain_score_guard (current_price max_pain : ℚ)
    (pain_df : List PainRow) (hne : pain_df ≠ []) :
    (max_pain ≠ 0 →
      (calculate_pain_score current_price max_pain pain_df).isOk = true) ∧
    calculate_pain_score current_price 0 pain_df = .error .divByZero := by
  constructor
  · intro hmp
    have hL1 : (pain_df.map fun r => |r.strike - current_price|) ≠ [] := by
      simp only [ne_eq, List.map_eq_nil_iff]; exact hne
    have hL2 : (pain_df.map PainRow.total_pain) ≠ [] := by
      simp only [ne_eq, List.map_eq_nil_iff]; exact hne
    obtain ⟨i, hfi, -, -, -⟩ := firstMinIdx_spec _ hL1
    obtain ⟨j, hfj, -, -, -⟩ := firstMinIdx_spec _ hL2
    simp only [calculate_pain_score, qdiv, if_neg hmp]
    rw [hfi, hfj]
    by_cases h0 : 0 < ((pain_df[j]?).getD default).total_pain
    · simp [h0, ne_of_gt h0, Except.isOk, Except.toBool]
    · simp [h0, Except.isOk, Except.toBool]
  · simp [calculate_pain_score, qdiv]

/-- Closed instance of pain_score_guard on the one-row curve at
strike 100, with current price 120 and max-pain strike 50. -/
theorem pain_score_guard_witness :
    (calculate_pain_score 120 50 [⟨100,0,0,0⟩]).isOk = true ∧
    calculate_pain_score 120 0 [⟨100,0,0,0⟩] = .error .divByZero :=
  ⟨(pain_score_guard 120 50 [⟨100,0,0,0⟩] (by simp)).1 (by norm_num),
   (pain_score_guard 120 0 [⟨100,0,0,0⟩] (by simp)).2⟩

end NiftyExpiry
